import Mathlib

/-!
Verification of the upload-pipeline specification against a shallow
embedding of the `youtube-up` source.

The embedding mirrors, per source file:

* `src/lib/data/history.py` (`HistoryManager`): the `uploads` table is a
  `List Row` in insertion (rowid) order; `add_record` / `add_failure` are
  the SELECT-then-UPDATE/INSERT upserts; `import_records` is the
  hash-deduplicating bulk insert.
* `src/services/upload_manager.py` (`process_video_files` /
  `process_file`): the quota gate arithmetic, the per-folder ordinal map,
  and the worker body as a function from its decision inputs (stop-event
  observations, dedup answers, hash result, upload outcome) to the list of
  externally visible actions it performs.
* `src/lib/video/uploader.py`: `should_retry_exception` and the tenacity
  retry loop over a sum type of Python exceptions.
* `src/lib/video/metadata.py` (`_resolve_template_config`): base template
  config merged with a per-folder override.
* `src/lib/video/playlist.py` (`_ensure_cache` / `get_or_create_playlist`):
  the single-page cache fill and title lookup.

Machine integers do not overflow in any modelled path, so counts are `Nat`
and timestamps/sizes are `Int`. Fallible values are `Option` / `Except`.
-/

/-! ## String helpers

Python's `in` on strings is a substring test; modelled on the underlying
character lists so that it evaluates by kernel reduction. -/

/-- Does the character list `h` start with `n`? -/
def charsStartWith : List Char → List Char → Bool
  | [], _ => true
  | _ :: _, [] => false
  | a :: as, b :: bs => a == b && charsStartWith as bs

/-- Does the character list `h` contain `n` as a contiguous run? -/
def charsContain (n : List Char) : List Char → Bool
  | [] => charsStartWith n []
  | c :: cs => charsStartWith n (c :: cs) || charsContain n cs

/-- Python `needle in haystack` for strings (substring containment). -/
def strContains (haystack needle : String) : Bool :=
  charsContain needle.data haystack.data

/-! ## HistoryStore (`src/lib/data/history.py`)

One row of the `uploads` table.  `video_id`, `error` and `playlist_name`
are nullable columns (`none` = SQL NULL); `metadata` holds the JSON text
produced by `json.dumps`. -/

structure Row where
  file_path : String
  file_hash : String
  video_id : Option String
  metadata : String
  timestamp : Int
  status : String
  error : Option String
  playlist_name : Option String
  file_size : Int
deriving DecidableEq, Repr

/-- Shared shape of `add_record` and `add_failure`: `SELECT id FROM uploads
WHERE file_hash = ? LIMIT 1`, then `UPDATE ... WHERE file_hash = ?` of every
matching row if one exists, else `INSERT` of a fresh row at the end. -/
def upsertBy (upd : Row → Row) (nr : Row) (h0 : String) (s : List Row) : List Row :=
  if s.any (fun r => r.file_hash == h0) then
    s.map (fun r => if r.file_hash == h0 then upd r else r)
  else
    s ++ [nr]

/-- `HistoryManager.add_record`: record a successful upload, overwriting the
row with the same `file_hash` if present (status `success`, `error` NULL).
`now` is the `time.time()` value observed by the call. -/
def add_record (now : Int) (file_path file_hash video_id metadata : String)
    (playlist_name : Option String) (file_size : Int) (s : List Row) : List Row :=
  upsertBy
    (fun r =>
      { r with
        file_path := file_path, video_id := some video_id, metadata := metadata,
        timestamp := now, status := "success", error := none,
        playlist_name := playlist_name, file_size := file_size })
    { file_path := file_path, file_hash := file_hash, video_id := some video_id,
      metadata := metadata, timestamp := now, status := "success", error := none,
      playlist_name := playlist_name, file_size := file_size }
    file_hash s

/-- `HistoryManager.add_failure`: record a failed upload, overwriting the row
with the same `file_hash` if present (status `failed`, `video_id` NULL,
`metadata` the serialized empty dict `json.dumps({})`). -/
def add_failure (now : Int) (file_path file_hash error_msg : String)
    (playlist_name : Option String) (file_size : Int) (s : List Row) : List Row :=
  upsertBy
    (fun r =>
      { r with
        file_path := file_path, video_id := none, metadata := "\x7b\x7d",
        timestamp := now, status := "failed", error := some error_msg,
        playlist_name := playlist_name, file_size := file_size })
    { file_path := file_path, file_hash := file_hash, video_id := none,
      metadata := "\x7b\x7d", timestamp := now, status := "failed",
      error := some error_msg, playlist_name := playlist_name, file_size := file_size }
    file_hash s

/-- The rows of the store carrying a given `file_hash`. -/
def rowsWithHash (s : List Row) (h0 : String) : List Row :=
  s.filter (fun r => r.file_hash == h0)

/-! Generic lemmas about the upsert shape. -/

theorem filter_length_map_congr {α : Type} (p : α → Bool) (f : α → α) (s : List α)
    (hp : ∀ r, p (f r) = p r) :
    ((s.map f).filter p).length = (s.filter p).length := by
  induction s with
  | nil => rfl
  | cons a t ih =>
    by_cases h : p a = true
    · simp [List.filter_cons, hp, h, ih]
    · simp [List.filter_cons, hp, h, ih]

theorem rowsWithHash_of_any_nodup (s : List Row) (h0 : String)
    (ha : s.any (fun r => r.file_hash == h0) = true)
    (hnd : (s.map Row.file_hash).Nodup) :
    (rowsWithHash s h0).length = 1 := by
  induction s with
  | nil => simp at ha
  | cons a t ih =>
    simp only [List.map_cons, List.nodup_cons] at hnd
    by_cases h : a.file_hash = h0
    · have ht : rowsWithHash t h0 = [] := by
        refine List.filter_eq_nil_iff.mpr ?_
        intro r hr
        simp only [beq_iff_eq]
        intro hrh
        exact hnd.1 (h ▸ hrh ▸ List.mem_map_of_mem Row.file_hash hr)
      unfold rowsWithHash at ht ⊢
      simp [List.filter_cons, h, ht]
    · have ha' : t.any (fun r => r.file_hash == h0) = true := by
        simpa [h] using ha
      have := ih ha' hnd.2
      simpa [rowsWithHash, List.filter_cons, h] using this

theorem upsertBy_count (upd : Row → Row) (nr : Row) (h0 : String) (s : List Row)
    (hupd : ∀ r, (upd r).file_hash = r.file_hash) (hnr : nr.file_hash = h0)
    (hnd : (s.map Row.file_hash).Nodup) :
    (rowsWithHash (upsertBy upd nr h0 s) h0).length = 1 := by
  unfold upsertBy
  by_cases ha : s.any (fun r => r.file_hash == h0) = true
  · rw [if_pos ha]
    have hcongr : ∀ r : Row,
        ((if r.file_hash == h0 then upd r else r).file_hash == h0) = (r.file_hash == h0) := by
      intro r
      by_cases h : r.file_hash = h0
      · simp [h, hupd]
      · simp [h]
    have := filter_length_map_congr (fun r => r.file_hash == h0)
      (fun r => if r.file_hash == h0 then upd r else r) s hcongr
    unfold rowsWithHash
    rw [this]
    exact rowsWithHash_of_any_nodup s h0 ha hnd
  · rw [if_neg ha]
    have hs : rowsWithHash s h0 = [] := by
      refine List.filter_eq_nil_iff.mpr ?_
      intro r hr
      simp only [beq_iff_eq]
      intro hrh
      exact ha (List.any_eq_true.mpr ⟨r, hr, by simp [hrh]⟩)
    unfold rowsWithHash at hs ⊢
    simp [List.filter_append, hs, hnr]

theorem upsertBy_rows (upd : Row → Row) (nr : Row) (h0 : String) (s : List Row)
    (r : Row) (hr : r ∈ upsertBy upd nr h0 s) (hrh : r.file_hash = h0) :
    r = nr ∨ ∃ r₀ ∈ s, r₀.file_hash = h0 ∧ r = upd r₀ := by
  unfold upsertBy at hr
  by_cases ha : s.any (fun r => r.file_hash == h0) = true
  · rw [if_pos ha] at hr
    obtain ⟨r₀, hr₀, hre⟩ := List.mem_map.mp hr
    by_cases h : r₀.file_hash = h0
    · right
      exact ⟨r₀, hr₀, h, by simpa [h] using hre.symm⟩
    · exfalso
      rw [if_neg (by simp [h])] at hre
      exact h (by rw [hre]; exact hrh)
  · rw [if_neg ha] at hr
    rcases List.mem_append.mp hr with hmem | hnew
    · exfalso
      exact ha (List.any_eq_true.mpr ⟨r, hmem, by simp [hrh]⟩)
    · left
      simpa using hnew

theorem upsertBy_nodup (upd : Row → Row) (nr : Row) (h0 : String) (s : List Row)
    (hupd : ∀ r, (upd r).file_hash = r.file_hash) (hnr : nr.file_hash = h0)
    (hnd : (s.map Row.file_hash).Nodup) :
    ((upsertBy upd nr h0 s).map Row.file_hash).Nodup := by
  unfold upsertBy
  by_cases ha : s.any (fun r => r.file_hash == h0) = true
  · rw [if_pos ha]
    have : (s.map (fun r => if r.file_hash == h0 then upd r else r)).map Row.file_hash
        = s.map Row.file_hash := by
      rw [List.map_map]
      refine List.map_congr_left ?_
      intro r _
      by_cases h : r.file_hash = h0
      · simp [h, hupd]
      · simp [h]
    rw [this]
    exact hnd
  · rw [if_neg ha]
    have hnotin : h0 ∉ s.map Row.file_hash := by
      intro hmem
      obtain ⟨r, hr, hre⟩ := List.mem_map.mp hmem
      exact ha (List.any_eq_true.mpr ⟨r, hr, by simp [hre]⟩)
    simp only [List.map_append, List.map_cons, List.map_nil]
    rw [List.nodup_append]
    refine ⟨hnd, by simp, ?_⟩
    intro a ha hb
    have hae : a = nr.file_hash := by simpa using hb
    rw [hae, hnr] at ha
    exact hnotin ha

/-- C1: upsert is last-writer-wins keyed by `file_hash`.  Starting from a
store with at most one row per hash, `add_failure` then `add_record` for the
same hash leaves exactly one row carrying that hash, with status `success`
and `error` NULL; `add_record` then `add_failure` leaves exactly one row
carrying that hash, with status `failed` and `video_id` NULL. -/
theorem upsert_last_writer_wins (s : List Row)
    (hnd : (s.map Row.file_hash).Nodup)
    (t₁ t₂ size₁ size₂ : Int) (p₁ p₂ h err vid meta : String)
    (pl₁ pl₂ : Option String) :
    ((rowsWithHash (add_record t₂ p₂ h vid meta pl₂ size₂
        (add_failure t₁ p₁ h err pl₁ size₁ s)) h).length = 1
      ∧ ∀ r ∈ add_record t₂ p₂ h vid meta pl₂ size₂
          (add_failure t₁ p₁ h err pl₁ size₁ s),
          r.file_hash = h → r.status = "success" ∧ r.error = none)
    ∧ ((rowsWithHash (add_failure t₂ p₂ h err pl₂ size₂
        (add_record t₁ p₁ h vid meta pl₁ size₁ s)) h).length = 1
      ∧ ∀ r ∈ add_failure t₂ p₂ h err pl₂ size₂
          (add_record t₁ p₁ h vid meta pl₁ size₁ s),
          r.file_hash = h → r.status = "failed" ∧ r.video_id = none) := by
  constructor
  · have hnd₁ : ((add_failure t₁ p₁ h err pl₁ size₁ s).map Row.file_hash).Nodup :=
      upsertBy_nodup _ _ _ _ (fun r => rfl) rfl hnd
    constructor
    · exact upsertBy_count _ _ _ _ (fun r => rfl) rfl hnd₁
    · intro r hr hrh
      rcases upsertBy_rows _ _ _ _ r hr hrh with hnew | ⟨r₀, _, _, hre⟩
      · subst hnew
        exact ⟨rfl, rfl⟩
      · subst hre
        exact ⟨rfl, rfl⟩
  · have hnd₁ : ((add_record t₁ p₁ h vid meta pl₁ size₁ s).map Row.file_hash).Nodup :=
      upsertBy_nodup _ _ _ _ (fun r => rfl) rfl hnd
    constructor
    · exact upsertBy_count _ _ _ _ (fun r => rfl) rfl hnd₁
    · intro r hr hrh
      rcases upsertBy_rows _ _ _ _ r hr hrh with hnew | ⟨r₀, _, _, hre⟩
      · subst hnew
        exact ⟨rfl, rfl⟩
      · subst hre
        exact ⟨rfl, rfl⟩

/-- Witness for C1 at a concrete input: the empty store trivially has
duplicate-free hashes, and failure-then-success for hash `"h1"` leaves one
`success` row with NULL `error`. -/
theorem upsert_last_writer_wins_witness :
    (rowsWithHash (add_record 2 "/b.mp4" "h1" "vid1" "m" none 7
        (add_failure 1 "/a.mp4" "h1" "boom" none 7 [])) "h1").length = 1 :=
  ((upsert_last_writer_wins [] (by simp) 1 2 7 7 "/a.mp4" "/b.mp4" "h1" "boom"
      "vid1" "m" none none).1).1

/-! ## Import and the data-model invariant (`HistoryManager.import_records`) -/

/-- One element of the list handed to `import_records` (a parsed export
record): every field is read with `record.get(...)`, so each is optional.
`metadata` stands for the already-serialized JSON text. -/
structure InRecord where
  file_path : Option String
  file_hash : Option String
  video_id : Option String
  metadata : Option String
  timestamp : Option Int
  status : Option String
  error : Option String
  playlist_name : Option String
  file_size : Option Int
deriving DecidableEq, Repr

/-- Python truthiness of `record.get("file_hash")`: `if not file_hash` skips
both a missing key and the empty string. -/
def truthyHash : Option String → Option String
  | none => none
  | some s => if s == "" then none else some s

/-- `HistoryManager.get_record`: `SELECT * ... WHERE file_hash = ? LIMIT 1`,
i.e. the first row in rowid order with that hash. -/
def get_record (s : List Row) (h0 : String) : Option Row :=
  s.find? (fun r => r.file_hash == h0)

/-- `HistoryManager.import_records`: for each record, skip it when
`file_hash` is missing/empty or a row with the hash already exists
(including rows inserted earlier in the same call, which the shared
connection sees); otherwise insert the record's fields verbatim, with the
source's defaults (`status` → `"success"`, `timestamp` → now, `metadata` →
`"{}"`, `file_path` → `""`, `file_size` → 0).  Returns the new store with
the `(imported, skipped)` counters. -/
def import_records (now : Int) (records : List InRecord) (s : List Row) :
    List Row × Nat × Nat :=
  records.foldl
    (fun acc rec =>
      match truthyHash rec.file_hash with
      | none => (acc.1, acc.2.1, acc.2.2 + 1)
      | some h =>
        match get_record acc.1 h with
        | some _ => (acc.1, acc.2.1, acc.2.2 + 1)
        | none =>
          (acc.1 ++
            [{ file_path := rec.file_path.getD "", file_hash := h,
               video_id := rec.video_id, metadata := rec.metadata.getD "\x7b\x7d",
               timestamp := rec.timestamp.getD now, status := rec.status.getD "success",
               error := rec.error, playlist_name := rec.playlist_name,
               file_size := rec.file_size.getD 0 }],
           acc.2.1 + 1, acc.2.2))
    (s, 0, 0)

/-- The data-model invariant of §3 of the spec: a `success` row has a
non-empty `video_id` and no `error`; a `failed` row has no `video_id`. -/
def rowInvariant (r : Row) : Prop :=
  (r.status = "success" → r.video_id ≠ none ∧ r.video_id ≠ some "" ∧ r.error = none)
    ∧ (r.status = "failed" → r.video_id = none)

instance (r : Row) : Decidable (rowInvariant r) := by
  unfold rowInvariant
  infer_instance

/-- Every row of the store satisfies the data-model invariant. -/
def storeInvariant (s : List Row) : Prop :=
  ∀ r ∈ s, rowInvariant r

instance (s : List Row) : Decidable (storeInvariant s) :=
  List.decidableBAll rowInvariant s

/-- C2 counterexample: `import_records` copies the input fields verbatim, so
importing into an empty (invariant-satisfying) store a record that claims
`status = "success"` but carries no `video_id` and a non-empty `error`
produces a store violating the invariant.  The claim that every store
operation, including `import_records`, preserves the invariant for
arbitrary input records is therefore false. -/
theorem import_breaks_invariant_counterexample :
    storeInvariant []
      ∧ (import_records 0
          [{ file_path := none, file_hash := some "deadbeef00000000", video_id := none,
             metadata := none, timestamp := none, status := some "success",
             error := some "boom", playlist_name := none, file_size := none }]
          []).1
        = [{ file_path := "", file_hash := "deadbeef00000000", video_id := none,
             metadata := "\x7b\x7d", timestamp := 0, status := "success",
             error := some "boom", playlist_name := none, file_size := 0 }]
      ∧ ¬ storeInvariant
          [{ file_path := "", file_hash := "deadbeef00000000", video_id := none,
             metadata := "\x7b\x7d", timestamp := 0, status := "success",
             error := some "boom", playlist_name := none, file_size := 0 }] := by
  refine ⟨by simp [storeInvariant], by decide, ?_⟩
  decide

/-- C2 as amended: the invariant does hold for, and is preserved by, the
rows the upload pipeline itself writes — `add_record` (whose `video_id`
argument is the non-empty id returned by the platform) and `add_failure` —
while `import_records` (and the analogous legacy-JSON migration) inserts
input fields verbatim and so can create violating rows. -/
theorem upsert_preserves_invariant (s : List Row) (hs : storeInvariant s)
    (now : Int) (p h vid meta err : String) (pl : Option String) (size : Int)
    (hvid : vid ≠ "") :
    storeInvariant (add_record now p h vid meta pl size s)
      ∧ storeInvariant (add_failure now p h err pl size s) := by
  constructor
  · intro r hr
    unfold add_record upsertBy at hr
    by_cases ha : s.any (fun r => r.file_hash == h) = true
    · rw [if_pos ha] at hr
      obtain ⟨r₀, hr₀, hre⟩ := List.mem_map.mp hr
      by_cases hh : r₀.file_hash = h
      · rw [if_pos (by simp [hh])] at hre
        subst hre
        exact ⟨fun _ => ⟨by simp, by simp [hvid], rfl⟩, fun hc => by simp at hc⟩
      · rw [if_neg (by simp [hh])] at hre
        subst hre
        exact hs r₀ hr₀
    · rw [if_neg ha] at hr
      rcases List.mem_append.mp hr with hmem | hnew
      · exact hs r hmem
      · rw [List.mem_singleton] at hnew
        subst hnew
        exact ⟨fun _ => ⟨by simp, by simp [hvid], rfl⟩, fun hc => by simp at hc⟩
  · intro r hr
    unfold add_failure upsertBy at hr
    by_cases ha : s.any (fun r => r.file_hash == h) = true
    · rw [if_pos ha] at hr
      obtain ⟨r₀, hr₀, hre⟩ := List.mem_map.mp hr
      by_cases hh : r₀.file_hash = h
      · rw [if_pos (by simp [hh])] at hre
        subst hre
        exact ⟨fun hc => by simp at hc, fun _ => rfl⟩
      · rw [if_neg (by simp [hh])] at hre
        subst hre
        exact hs r₀ hr₀
    · rw [if_neg ha] at hr
      rcases List.mem_append.mp hr with hmem | hnew
      · exact hs r hmem
      · rw [List.mem_singleton] at hnew
        subst hnew
        exact ⟨fun hc => by simp at hc, fun _ => rfl⟩

/-- Witness for the amended C2 at a concrete input: recording a success with
a non-empty video id into the empty store keeps the invariant. -/
theorem upsert_preserves_invariant_witness :
    storeInvariant (add_record 1 "/a.mp4" "h1" "vid1" "m" none 5 []) :=
  (upsert_preserves_invariant [] (by simp [storeInvariant]) 1 "/a.mp4" "h1"
      "vid1" "m" "e" none 5 (by decide)).1

/-! ## Quota gate (`process_video_files`, `src/services/upload_manager.py`)

The non-dry-run prologue of `process_video_files`: count today's success
rows, estimate the units already used at 1600 per upload, and either halt
(return before processing any file), warn with the maximum processable
count, or proceed silently. -/

/-- Estimated YouTube API cost of one video insert, in quota units
(`COST_PER_UPLOAD`). -/
def COST_PER_UPLOAD : Int := 1600

/-- The rows counted as today's uploads: `status == "success"` and
`timestamp >= today_start` (local midnight as an epoch value). -/
def today_uploads (today_start : Int) (records : List Row) : List Row :=
  records.filter (fun r => r.status == "success" && decide (today_start ≤ r.timestamp))

/-- `used_units = len(today_uploads) * COST_PER_UPLOAD`. -/
def used_units (today_start : Int) (records : List Row) : Int :=
  (today_uploads today_start records).length * COST_PER_UPLOAD

/-- `remaining_units = max(0, quota_limit - used_units)`. -/
def remaining_units (quota_limit today_start : Int) (records : List Row) : Int :=
  max 0 (quota_limit - used_units today_start records)

/-- Outcome of the quota prologue: `halt` = the early `return False` (no
file is processed this run), `warn` = the warning branch (the run
continues), `ok` = the informational branch. -/
inductive QuotaDecision where
  | halt
  | warn (maxUploadable : Int)
  | ok
deriving DecidableEq, Repr

/-- The quota gate of `process_video_files` for a non-dry-run batch of
`numFiles` candidate files (`max_uploadable = remaining_units //
COST_PER_UPLOAD`; Python floor division coincides with `Int` division here
because `remaining_units` is non-negative). -/
def quota_gate (quota_limit today_start : Int) (records : List Row)
    (numFiles : Nat) : QuotaDecision :=
  let remaining := remaining_units quota_limit today_start records
  let maxUploadable := remaining / COST_PER_UPLOAD
  if remaining < COST_PER_UPLOAD then .halt
  else if maxUploadable < (numFiles : Int) then .warn maxUploadable
  else .ok

/-- C5: the quota gate computes `used = 1600 × (success rows with timestamp
at or after local start of today)` and `remaining = max(0, limit − used)`;
it halts (processes no files) iff `remaining < 1600`; and when it does not
halt it warns — with the maximum processable count `remaining / 1600` — iff
that count is smaller than the number of candidate files, still running in
that case. -/
theorem quota_gate_spec (quota_limit today_start : Int) (records : List Row)
    (numFiles : Nat) :
    used_units today_start records
        = 1600 * ((records.filter (fun r =>
            r.status == "success" && decide (today_start ≤ r.timestamp))).length : Int)
      ∧ remaining_units quota_limit today_start records
          = max 0 (quota_limit - used_units today_start records)
      ∧ (quota_gate quota_limit today_start records numFiles = .halt
          ↔ remaining_units quota_limit today_start records < 1600)
      ∧ (COST_PER_UPLOAD ≤ remaining_units quota_limit today_start records →
          (quota_gate quota_limit today_start records numFiles
              = .warn (remaining_units quota_limit today_start records / 1600)
            ↔ remaining_units quota_limit today_start records / 1600 < (numFiles : Int)))
      ∧ (COST_PER_UPLOAD ≤ remaining_units quota_limit today_start records →
          quota_gate quota_limit today_start records numFiles ≠ .halt) := by
  refine ⟨by unfold used_units today_uploads COST_PER_UPLOAD; ring, rfl, ?_, ?_, ?_⟩
  · unfold quota_gate COST_PER_UPLOAD
    constructor
    · intro hgate
      by_contra hrem
      rw [if_neg hrem] at hgate
      by_cases hw : remaining_units quota_limit today_start records / 1600 < (numFiles : Int)
      · rw [if_pos hw] at hgate
        exact QuotaDecision.noConfusion hgate
      · rw [if_neg hw] at hgate
        exact QuotaDecision.noConfusion hgate
    · intro hrem
      simp only [hrem, if_pos]
  · intro hge
    unfold COST_PER_UPLOAD at hge
    unfold quota_gate COST_PER_UPLOAD
    rw [if_neg (not_lt.mpr hge)]
    constructor
    · intro hgate
      by_contra hw
      rw [if_neg hw] at hgate
      exact QuotaDecision.noConfusion hgate
    · intro hw
      rw [if_pos hw]
  · intro hge
    unfold COST_PER_UPLOAD at hge
    unfold quota_gate COST_PER_UPLOAD
    rw [if_neg (not_lt.mpr hge)]
    by_cases hw : remaining_units quota_limit today_start records / 1600 < (numFiles : Int)
    · rw [if_pos hw]
      exact fun hc => QuotaDecision.noConfusion hc
    · rw [if_neg hw]
      exact fun hc => QuotaDecision.noConfusion hc

/-- Witness for C5 at a concrete input: with a 10,000-unit daily limit, two
success rows from today (3,200 units used, 6,800 remaining) and ten
candidate files, the gate does not halt, and it warns with a maximum of
four processable files. -/
theorem quota_gate_spec_witness :
    quota_gate 10000 100
        [{ file_path := "/a", file_hash := "h1", video_id := some "v1", metadata := "m",
           timestamp := 150, status := "success", error := none,
           playlist_name := none, file_size := 1 },
         { file_path := "/b", file_hash := "h2", video_id := some "v2", metadata := "m",
           timestamp := 200, status := "success", error := none,
           playlist_name := none, file_size := 1 },
         { file_path := "/c", file_hash := "h3", video_id := none, metadata := "m",
           timestamp := 250, status := "failed", error := some "e",
           playlist_name := none, file_size := 1 }] 10
      = .warn 4 := by
  have h := (quota_gate_spec 10000 100
      [{ file_path := "/a", file_hash := "h1", video_id := some "v1", metadata := "m",
         timestamp := 150, status := "success", error := none,
         playlist_name := none, file_size := 1 },
       { file_path := "/b", file_hash := "h2", video_id := some "v2", metadata := "m",
         timestamp := 200, status := "success", error := none,
         playlist_name := none, file_size := 1 },
       { file_path := "/c", file_hash := "h3", video_id := none, metadata := "m",
         timestamp := 250, status := "failed", error := some "e",
         playlist_name := none, file_size := 1 }] 10).2.2.2.1 (by decide)
  exact h.mpr (by decide)

/-! ## Retry classification (`src/lib/video/uploader.py`)

Python exceptions reaching `should_retry_exception`, as a sum type.  On
Python 3, `socket.error` is `OSError` and `socket.timeout` its subclass;
both are covered by the first `isinstance` arm.  `httpError` carries the
HTTP status (`e.resp.status`) and the `str(e)` rendering used by the
substring classifications elsewhere; `otherExc` is any other exception
(its message kept for `str(e)`). -/

inductive PyExc where
  | socketError (msg : String)
  | socketTimeout (msg : String)
  | httpError (status : Nat) (msg : String)
  | otherExc (msg : String)
deriving DecidableEq, Repr

/-- The `str(e)` rendering of an exception. -/
def PyExc.str : PyExc → String
  | .socketError m => m
  | .socketTimeout m => m
  | .httpError _ m => m
  | .otherExc m => m

/-- `should_retry_exception`: retry socket-level errors and timeouts, and
`HttpError`s whose status is in `[408, 429, 500, 502, 503, 504]`; nothing
else. -/
def should_retry_exception : PyExc → Bool
  | .socketError _ => true
  | .socketTimeout _ => true
  | .httpError status _ =>
    if status ∈ [408, 429, 500, 502, 503, 504] then true else false
  | .otherExc _ => false

/-- The tenacity retry loop around `upload_video`
(`stop=stop_after_attempt(retry_count)`,
`retry=retry_if_exception(should_retry_exception)`): attempt `k` runs the
body; a success returns; an exception the predicate rejects propagates
immediately; an accepted exception is retried while attempts remain and
propagates once they are exhausted.  `attempts k` is the outcome of the
`k`-th call of the decorated body; `fuel` counts the attempts still
allowed after the current one. -/
def retryGo {α : Type} (attempts : Nat → Except PyExc α) : Nat → Nat → Except PyExc α
  | k, fuel =>
    match attempts k, fuel with
    | .ok v, _ => .ok v
    | .error e, 0 => .error e
    | .error e, fuel' + 1 =>
      if should_retry_exception e then retryGo attempts (k + 1) fuel' else .error e

/-- `upload_video` under its `@retry` decorator with `retry_count` total
attempts (the source default is `config.upload.retry_count = 5`). -/
def upload_video_retry {α : Type} (attempts : Nat → Except PyExc α)
    (retry_count : Nat) : Except PyExc α :=
  retryGo attempts 1 (retry_count - 1)

/-- C6: `should_retry_exception` accepts exactly the socket-level
errors/timeouts and the `HttpError`s with status in
{408, 429, 500, 502, 503, 504} — in particular it rejects every other
`HttpError` status and every non-HTTP exception — and the upload retry
loop retries exactly the exceptions the predicate accepts: an attempt
failing with a rejected exception propagates it with no further attempt,
while an accepted exception leads to the next attempt whenever attempts
remain, and propagates once they are exhausted. -/
theorem retry_classification_spec {α : Type} :
    (∀ e : PyExc, should_retry_exception e = true
        ↔ ((∃ m, e = .socketError m) ∨ (∃ m, e = .socketTimeout m)
            ∨ (∃ s m, e = .httpError s m ∧ s ∈ [408, 429, 500, 502, 503, 504])))
    ∧ (∀ (attempts : Nat → Except PyExc α) (k fuel : Nat) (e : PyExc),
        attempts k = .error e → should_retry_exception e = false →
          retryGo attempts k fuel = .error e)
    ∧ (∀ (attempts : Nat → Except PyExc α) (k fuel : Nat) (e : PyExc),
        attempts k = .error e → should_retry_exception e = true →
          retryGo attempts k (fuel + 1) = retryGo attempts (k + 1) fuel)
    ∧ (∀ (attempts : Nat → Except PyExc α) (k : Nat) (e : PyExc),
        attempts k = .error e → retryGo attempts k 0 = .error e) := by
  refine ⟨?_, ?_, ?_, ?_⟩
  · intro e
    cases e with
    | socketError m => simp [should_retry_exception]
    | socketTimeout m => simp [should_retry_exception]
    | httpError s m =>
      by_cases hs : s ∈ [408, 429, 500, 502, 503, 504]
      · constructor
        · intro _
          exact Or.inr (Or.inr ⟨s, m, rfl, hs⟩)
        · intro _
          simp [should_retry_exception, hs]
      · constructor
        · intro hc
          exfalso
          simp [should_retry_exception, hs] at hc
        · rintro (⟨m', hm⟩ | ⟨m', hm⟩ | ⟨s', m', he, hs'⟩)
          · exact PyExc.noConfusion hm
          · exact PyExc.noConfusion hm
          · cases he
            exact absurd hs' hs
    | otherExc m => simp [should_retry_exception]
  · intro attempts k fuel e hatt hret
    cases fuel with
    | zero => simp [retryGo, hatt]
    | succ fuel' => simp [retryGo, hatt, hret]
  · intro attempts k fuel e hatt hret
    simp [retryGo, hatt, hret]
  · intro attempts k e hatt
    simp [retryGo, hatt]

/-- Witness for C6 at concrete inputs: a 403 `HttpError` (quota) is not
retried — the first attempt's error propagates — while a 503 is retried and
the second attempt's success is returned. -/
theorem retry_classification_spec_witness :
    retryGo (fun _ => .error (.httpError 403 "quotaExceeded")) 1 4
        = (.error (.httpError 403 "quotaExceeded") : Except PyExc String)
      ∧ retryGo (fun k => if k = 1 then .error (.httpError 503 "unavailable") else .ok "vid")
          1 4
        = (.ok "vid" : Except PyExc String) := by
  constructor
  · exact (retry_classification_spec (α := String)).2.1
      (fun _ => .error (.httpError 403 "quotaExceeded")) 1 4 _ rfl (by decide)
  · have hstep := (retry_classification_spec (α := String)).2.2.1
      (fun k => if k = 1 then .error (.httpError 503 "unavailable") else .ok "vid")
      1 3 (.httpError 503 "unavailable") rfl (by decide)
    rw [hstep]
    rfl

/-! ## Per-folder ordinals (`process_video_files`, `src/services/upload_manager.py`)

Before any worker starts, `process_video_files` groups the candidate files
by parent folder (`files_by_folder[f.parent].append(f)`), sorts each group
by file name (`files.sort(key=lambda x: x.name)`), and builds
`folder_map[f] = (i, total)` with `enumerate(files, start=1)`.  Workers
later read `folder_map.get(file_path, (0, 0))`. -/

/-- A candidate file, identified by its parent directory and its name (the
`Path` is `parent/name`). -/
structure VFile where
  parent : String
  name : String
deriving DecidableEq, Repr

/-- Lexicographic code-point order on character lists — how Python compares
the `str` names in `sort(key=lambda x: x.name)`. -/
def charsLe : List Char → List Char → Bool
  | [], _ => true
  | _ :: _, [] => false
  | a :: as, b :: bs =>
    if a < b then true
    else if a = b then charsLe as bs
    else false

/-- String comparison by code points. -/
def nameLe (a b : String) : Bool := charsLe a.data b.data

/-- A stable sort of the folder's files by name — `files.sort(key=lambda
x: x.name)`. -/
def sortByName (l : List VFile) : List VFile :=
  List.insertionSort (fun a b => nameLe a.name b.name) l

/-- The name-sorted list of candidate files sitting in folder `d` — one
value of `files_by_folder` after the sort. -/
def folderGroup (files : List VFile) (d : String) : List VFile :=
  sortByName (files.filter (fun f => f.parent == d))

/-- The distinct parent folders of the candidate files — the keys of
`files_by_folder` (key order is immaterial below). -/
def foldersOf (files : List VFile) : List String :=
  (files.map VFile.parent).dedup

/-- `enumerate(files, start=1)` paired with the folder total: the
`folder_map` entries contributed by one folder whose group has length `n`,
starting at position `k`. -/
def entriesAux (n : Nat) : List VFile → Nat → List (VFile × Nat × Nat)
  | [], _ => []
  | g :: gs, k => (g, (k + 1, n)) :: entriesAux n gs (k + 1)

/-- The `folder_map` entries of folder `d`. -/
def entriesFor (files : List VFile) (d : String) : List (VFile × Nat × Nat) :=
  entriesAux (folderGroup files d).length (folderGroup files d) 0

/-- All `folder_map` entries, folder by folder. -/
def folderEntries (files : List VFile) : List (VFile × Nat × Nat) :=
  (foldersOf files).flatMap (fun d => entriesFor files d)

/-- `folder_map.get(file_path, (0, 0))` as read by `process_file`. -/
def ordinalOf (files : List VFile) (f : VFile) : Nat × Nat :=
  match (folderEntries files).find? (fun e => e.1 == f) with
  | some e => e.2
  | none => (0, 0)

/-- The ordinal a worker passes to `metadata_gen.generate`: the map is
computed once from the scanned file list, before the workers run, so the
upload completion order is not an input at all. -/
def runOrdinal (files : List VFile) (_completionOrder : List VFile) (f : VFile) :
    Nat × Nat :=
  ordinalOf files f

theorem mem_folderGroup_parent (files : List VFile) (d : String) :
    ∀ f ∈ folderGroup files d, f.parent = d := by
  intro f hf
  unfold folderGroup sortByName at hf
  have hmem := (List.perm_insertionSort _ _).mem_iff.mp hf
  have := List.mem_filter.mp hmem
  simpa using this.2

theorem folderGroup_nodup (files : List VFile) (d : String) (hnd : files.Nodup) :
    (folderGroup files d).Nodup := by
  unfold folderGroup sortByName
  exact (List.perm_insertionSort _ _).symm.nodup (List.Nodup.filter _ hnd)

theorem mem_folderGroup_mem (files : List VFile) (d : String) :
    ∀ f ∈ folderGroup files d, f ∈ files := by
  intro f hf
  unfold folderGroup sortByName at hf
  have hmem := (List.perm_insertionSort _ _).mem_iff.mp hf
  exact (List.mem_filter.mp hmem).1

theorem entriesAux_key_mem (n : Nat) (gs : List VFile) (k : Nat) :
    ∀ e ∈ entriesAux n gs k, e.1 ∈ gs := by
  induction gs generalizing k with
  | nil => intro e he; simp [entriesAux] at he
  | cons g t ih =>
    intro e he
    rcases List.mem_cons.mp he with he | he
    · subst he
      exact List.mem_cons_self _ _
    · exact List.mem_cons_of_mem _ (ih (k + 1) e he)

theorem entriesAux_find_get (n : Nat) (gs : List VFile) :
    ∀ (k i : Nat) (hi : i < gs.length), gs.Nodup →
      (entriesAux n gs k).find? (fun e => e.1 == gs.get ⟨i, hi⟩)
        = some (gs.get ⟨i, hi⟩, (k + i + 1, n)) := by
  induction gs with
  | nil => intro k i hi; exact absurd hi (by simp)
  | cons g t ih =>
    intro k i hi hnd
    rw [List.nodup_cons] at hnd
    cases i with
    | zero =>
      simp [entriesAux, List.find?_cons]
    | succ i =>
      have hi' : i < t.length := Nat.lt_of_succ_lt_succ hi
      have hget : (g :: t).get ⟨i + 1, hi⟩ = t.get ⟨i, hi'⟩ := rfl
      have hgne : (g == (g :: t).get ⟨i + 1, hi⟩) = false := by
        rw [hget]
        simp only [beq_eq_false_iff_ne, ne_eq]
        intro h
        exact hnd.1 (h ▸ List.get_mem t i hi')
      rw [entriesAux, List.find?_cons, hgne]
      rw [hget]
      rw [ih (k + 1) i hi' hnd.2]
      have harith : k + 1 + i + 1 = k + (i + 1) + 1 := by omega
      rw [harith]

theorem find_over_folders (files : List VFile) (f : VFile) (val : Nat × Nat)
    (d : String) (hpar : f.parent = d) (ds : List String) (hd : d ∈ ds)
    (hfind : (entriesFor files d).find? (fun e => e.1 == f) = some (f, val)) :
    (ds.flatMap (fun d => entriesFor files d)).find? (fun e => e.1 == f)
      = some (f, val) := by
  induction ds with
  | nil => simp at hd
  | cons d' rest ih =>
    rw [List.flatMap_cons, List.find?_append]
    by_cases hdd : d' = d
    · subst hdd
      rw [hfind]
      rfl
    · have hnone : (entriesFor files d').find? (fun e => e.1 == f) = none := by
        rw [List.find?_eq_none]
        intro e he
        have hkey : e.1 ∈ folderGroup files d' := entriesAux_key_mem _ _ _ e he
        have hp : e.1.parent = d' := mem_folderGroup_parent files d' e.1 hkey
        simp only [beq_iff_eq]
        intro hef
        exact hdd (by rw [← hp, hef, hpar])
      rw [hnone]
      have hd' : d ∈ rest := by
        rcases List.mem_cons.mp hd with h | h
        · exact absurd h.symm hdd
        · exact h
      simpa using ih hd'

theorem ordinalOf_folderGroup (files : List VFile) (hnd : files.Nodup) (d : String)
    (i : Nat) (hi : i < (folderGroup files d).length) :
    ordinalOf files ((folderGroup files d).get ⟨i, hi⟩)
      = (i + 1, (folderGroup files d).length) := by
  have hfg : (folderGroup files d).get ⟨i, hi⟩ ∈ folderGroup files d :=
    List.get_mem _ _ _
  have hpar : ((folderGroup files d).get ⟨i, hi⟩).parent = d :=
    mem_folderGroup_parent files d _ hfg
  have hgfind : (entriesFor files d).find?
      (fun e => e.1 == (folderGroup files d).get ⟨i, hi⟩)
      = some ((folderGroup files d).get ⟨i, hi⟩,
          (i + 1, (folderGroup files d).length)) := by
    unfold entriesFor
    have := entriesAux_find_get (folderGroup files d).length (folderGroup files d)
      0 i hi (folderGroup_nodup files d hnd)
    simpa using this
  have hdmem : d ∈ foldersOf files := by
    unfold foldersOf
    rw [List.mem_dedup]
    have hmem : (folderGroup files d).get ⟨i, hi⟩ ∈ files :=
      mem_folderGroup_mem files d _ hfg
    exact hpar ▸ List.mem_map_of_mem VFile.parent hmem
  have hfinal := find_over_folders files _ _ d hpar (foldersOf files) hdmem hgfind
  unfold ordinalOf folderEntries
  rw [hfinal]

/-- C7: for every folder, when its candidate files are sorted ascending by
name into `[f1..fn]`, the ordinal map handed to metadata generation sends
`fi` to `(index = i, total = n)` (1-based); and the ordinal a worker reads
is a function of the scanned file list alone — computed before any worker
starts — hence identical for any two completion orders. -/
theorem folder_ordinal_stability :
    (∀ files : List VFile, files.Nodup → ∀ (d : String) (i : Nat)
        (hi : i < (folderGroup files d).length),
        ordinalOf files ((folderGroup files d).get ⟨i, hi⟩)
          = (i + 1, (folderGroup files d).length))
    ∧ (∀ (files o₁ o₂ : List VFile) (f : VFile),
        runOrdinal files o₁ f = runOrdinal files o₂ f) :=
  ⟨fun files hnd d i hi => ordinalOf_folderGroup files hnd d i hi,
   fun _ _ _ _ => rfl⟩

/-- Witness for C7 at a concrete input: three files in two folders; the
name-sorted view of folder `"A"` is `[⟨A, a⟩, ⟨A, b⟩]` and its first file
gets ordinal `(1, 2)`. -/
theorem folder_ordinal_stability_witness :
    ordinalOf ([⟨"A", "b"⟩, ⟨"A", "a"⟩, ⟨"B", "c"⟩] : List VFile)
        ((folderGroup ([⟨"A", "b"⟩, ⟨"A", "a"⟩, ⟨"B", "c"⟩] : List VFile) "A").get
          ⟨0, by decide⟩)
      = (1, (folderGroup ([⟨"A", "b"⟩, ⟨"A", "a"⟩, ⟨"B", "c"⟩] : List VFile) "A").length) :=
  folder_ordinal_stability.1 ([⟨"A", "b"⟩, ⟨"A", "a"⟩, ⟨"B", "c"⟩] : List VFile)
    (by decide) "A" 0 (by decide)

/-! ## The worker body (`process_file` in `src/services/upload_manager.py`)

`process_file` is modelled as a function from the decisions a single worker
observes — its two stop-event reads, the dedup answers, the hash result,
and the outcome of `uploader.upload_video` — to the list of externally
visible actions it performs, in program order.  Progress/console output and
metadata generation (which the claims do not touch) are not modelled;
hashing is modelled as returning `hashResult` (the source's `""` on I/O
error), so at exception-handling time the local `file_hash` equals
`hashResult` rather than its `"unknown"` initializer. -/

/-- An externally visible action of one worker, with the arguments the
source passes: a `history.add_record` / `history.add_failure` write, the
`upload_video` call, latching the shared stop event, a playlist attach, or
a thumbnail set. -/
inductive Ev where
  | callUpload
  | recordSuccess (file_path file_hash vid metadata playlist : String) (size : Int)
  | recordFailure (file_path file_hash err playlist : String) (size : Int)
  | latchStop
  | playlistAdd (playlistId vid : String)
  | thumbnailSet (vid : String)
deriving DecidableEq, Repr

/-- The inputs one worker run observes. `stopAtEntry` / `stopAfterSem` are
the two `stop_event.is_set()` reads (before and after acquiring the
semaphore); `stopSeenAtFailureRecord` is the read guarding the generic
`HttpError` failure record, for the branches that did not set the event
themselves; `playlistId` is the `get_or_create_playlist` outcome. -/
structure WorkerEnv where
  stopAtEntry : Bool
  stopAfterSem : Bool
  simpleCheck : Bool
  force : Bool
  uploadedByPath : Bool
  hashResult : String
  uploadedByHash : Bool
  dryRun : Bool
  uploadResult : Except PyExc (Option String)
  stopSeenAtFailureRecord : Bool
  playlistManagerPresent : Bool
  playlistId : Option String
  thumbnailExists : Bool
  filePath : String
  parentName : String
  playlistNameArg : Option String
  fileSize : Int
  metadataJson : String
deriving Repr

/-- `target_playlist = playlist_name or file_path.parent.name` (Python
`or`: a missing or empty CLI playlist name falls back to the parent
directory name). -/
def targetPlaylist (env : WorkerEnv) : String :=
  match env.playlistNameArg with
  | some p => if p == "" then env.parentName else p
  | none => env.parentName

/-- The worker body of `process_file`, in program order: the two stop
checks, the path fast-path dedup, hashing, the hash dedup, the dry-run
return, the upload, and either the success post-processing sequence
(history commit, playlist attach, thumbnail) or the exception handlers
(signup / 403-quota / 400-upload-limit / other `HttpError` / any other
exception). -/
def process_file (env : WorkerEnv) : List Ev :=
  if env.stopAtEntry then []
  else if env.stopAfterSem then []
  else if env.simpleCheck && !env.force && env.uploadedByPath then []
  else if !env.force && env.uploadedByHash then []
  else if env.dryRun then []
  else
    Ev.callUpload ::
      (match env.uploadResult with
       | .ok none => []
       | .ok (some vid) =>
         if vid == "" then []
         else
           Ev.recordSuccess env.filePath env.hashResult vid env.metadataJson
               (targetPlaylist env) env.fileSize
             :: ((if env.playlistManagerPresent then
                   match env.playlistId with
                   | some pid => if pid == "" then [] else [Ev.playlistAdd pid vid]
                   | none => []
                 else [])
               ++ (if env.thumbnailExists then [Ev.thumbnailSet vid] else []))
       | .error e =>
         match e with
         | .httpError status msg =>
           if strContains msg "youtubeSignupRequired" then
             if !env.stopSeenAtFailureRecord && env.hashResult != "unknown" then
               [Ev.recordFailure env.filePath env.hashResult msg
                 (targetPlaylist env) env.fileSize]
             else []
           else if status == 403 && strContains msg "quotaExceeded" then
             Ev.latchStop ::
               (if env.hashResult != "unknown" then
                 [Ev.recordFailure env.filePath env.hashResult "Quota Exceeded"
                   (targetPlaylist env) env.fileSize]
               else [])
           else if status == 400 && strContains msg "uploadLimitExceeded" then
             Ev.latchStop ::
               (if env.hashResult != "unknown" then
                 [Ev.recordFailure env.filePath env.hashResult
                   "Account Upload Limit Exceeded" (targetPlaylist env) env.fileSize]
               else [])
           else
             if !env.stopSeenAtFailureRecord && env.hashResult != "unknown" then
               [Ev.recordFailure env.filePath env.hashResult msg
                 (targetPlaylist env) env.fileSize]
             else []
         | e' =>
           if env.hashResult != "unknown" then
             [Ev.recordFailure env.filePath env.hashResult e'.str
               (targetPlaylist env) env.fileSize]
           else [])

/-- The store effect of one worker action: record events perform the
corresponding history upsert, everything else leaves the store unchanged. -/
def applyEv (now : Int) (s : List Row) : Ev → List Row
  | .recordSuccess p h v m pl sz => add_record now p h v m (some pl) sz s
  | .recordFailure p h err pl sz => add_failure now p h err (some pl) sz s
  | _ => s

/-- The store after a worker's actions run in program order. -/
def applyEvents (now : Int) (s : List Row) (evs : List Ev) : List Row :=
  evs.foldl (applyEv now) s

/-- C3: a worker that observes the latched stop signal at its entry check or
at its post-semaphore check performs no action at all — in particular it
never calls `upload_video` and writes no history row, so the store
(including every already-committed success row) is left exactly as it was;
and the stop signal is only ever latched by a worker whose upload failed
with an HTTP 403 carrying `quotaExceeded` or an HTTP 400 carrying
`uploadLimitExceeded`. -/
theorem stop_latched_worker_inert :
    (∀ env : WorkerEnv, env.stopAtEntry = true ∨ env.stopAfterSem = true →
      process_file env = []
        ∧ Ev.callUpload ∉ process_file env
        ∧ ∀ (now : Int) (s : List Row), applyEvents now s (process_file env) = s)
    ∧ (∀ env : WorkerEnv, Ev.latchStop ∈ process_file env →
        ∃ (status : Nat) (msg : String),
          env.uploadResult = Except.error (PyExc.httpError status msg)
            ∧ ((status = 403 ∧ strContains msg "quotaExceeded" = true)
              ∨ (status = 400 ∧ strContains msg "uploadLimitExceeded" = true))) := by
  constructor
  · intro env h
    have hempty : process_file env = [] := by
      unfold process_file
      rcases h with h | h
      · rw [if_pos h]
      · by_cases h1 : env.stopAtEntry = true
        · rw [if_pos h1]
        · rw [if_neg h1, if_pos h]
    refine ⟨hempty, ?_, ?_⟩
    · rw [hempty]
      exact List.not_mem_nil _
    · intro now s
      rw [hempty]
      rfl
  · intro env hmem
    unfold process_file at hmem
    by_cases h1 : env.stopAtEntry = true
    · rw [if_pos h1] at hmem
      exact absurd hmem (List.not_mem_nil _)
    rw [if_neg h1] at hmem
    by_cases h2 : env.stopAfterSem = true
    · rw [if_pos h2] at hmem
      exact absurd hmem (List.not_mem_nil _)
    rw [if_neg h2] at hmem
    by_cases h3 : (env.simpleCheck && !env.force && env.uploadedByPath) = true
    · rw [if_pos h3] at hmem
      exact absurd hmem (List.not_mem_nil _)
    rw [if_neg h3] at hmem
    by_cases h4 : (!env.force && env.uploadedByHash) = true
    · rw [if_pos h4] at hmem
      exact absurd hmem (List.not_mem_nil _)
    rw [if_neg h4] at hmem
    by_cases h5 : env.dryRun = true
    · rw [if_pos h5] at hmem
      exact absurd hmem (List.not_mem_nil _)
    rw [if_neg h5] at hmem
    cases hur : env.uploadResult with
    | ok vidOpt =>
      rw [hur] at hmem
      cases vidOpt with
      | none => simp at hmem
      | some vid =>
        by_cases hv : (vid == "") = true
        · simp only [hv, if_pos] at hmem
          simp at hmem
        · simp only [hv] at hmem
          simp only [Bool.false_eq_true, if_false] at hmem
          rcases List.mem_cons.mp hmem with hc | hmem'
          · exact absurd hc (by simp)
          rcases List.mem_cons.mp hmem' with hc | hmem''
          · exact absurd hc (by simp)
          rcases List.mem_append.mp hmem'' with hp | ht
          · by_cases hpm : env.playlistManagerPresent = true
            · rw [if_pos hpm] at hp
              cases hpid : env.playlistId with
              | none => rw [hpid] at hp; simp at hp
              | some pid =>
                rw [hpid] at hp
                dsimp only at hp
                by_cases hpe : (pid == "") = true
                · rw [if_pos hpe] at hp; simp at hp
                · rw [if_neg hpe] at hp; simp at hp
            · rw [if_neg hpm] at hp
              simp at hp
          · by_cases hth : env.thumbnailExists = true
            · rw [if_pos hth] at ht; simp at ht
            · rw [if_neg hth] at ht; simp at ht
    | error e =>
      cases e with
      | httpError status msg =>
        rw [hur] at hmem
        dsimp only at hmem
        by_cases hsu : strContains msg "youtubeSignupRequired" = true
        · rw [if_pos hsu] at hmem
          by_cases hrec : (!env.stopSeenAtFailureRecord && env.hashResult != "unknown") = true
          · rw [if_pos hrec] at hmem; simp at hmem
          · rw [if_neg hrec] at hmem; simp at hmem
        rw [if_neg hsu] at hmem
        by_cases hq : (status == 403 && strContains msg "quotaExceeded") = true
        · refine ⟨status, msg, rfl, Or.inl ?_⟩
          have hand := Bool.and_eq_true_iff.mp hq
          exact ⟨by simpa using hand.1, hand.2⟩
        rw [if_neg hq] at hmem
        by_cases hl : (status == 400 && strContains msg "uploadLimitExceeded") = true
        · refine ⟨status, msg, rfl, Or.inr ?_⟩
          have hand := Bool.and_eq_true_iff.mp hl
          exact ⟨by simpa using hand.1, hand.2⟩
        rw [if_neg hl] at hmem
        by_cases hrec : (!env.stopSeenAtFailureRecord && env.hashResult != "unknown") = true
        · rw [if_pos hrec] at hmem; simp at hmem
        · rw [if_neg hrec] at hmem; simp at hmem
      | socketError m =>
        rw [hur] at hmem
        dsimp only at hmem
        by_cases hh : (env.hashResult != "unknown") = true
        · rw [if_pos hh] at hmem; simp at hmem
        · rw [if_neg hh] at hmem; simp at hmem
      | socketTimeout m =>
        rw [hur] at hmem
        dsimp only at hmem
        by_cases hh : (env.hashResult != "unknown") = true
        · rw [if_pos hh] at hmem; simp at hmem
        · rw [if_neg hh] at hmem; simp at hmem
      | otherExc m =>
        rw [hur] at hmem
        dsimp only at hmem
        by_cases hh : (env.hashResult != "unknown") = true
        · rw [if_pos hh] at hmem; simp at hmem
        · rw [if_neg hh] at hmem; simp at hmem

/-- Witness for C3 at a concrete input: a worker whose entry check sees the
latched stop performs nothing. -/
theorem stop_latched_worker_inert_witness :
    process_file
        { stopAtEntry := true, stopAfterSem := false, simpleCheck := false,
          force := false, uploadedByPath := false, hashResult := "aa11",
          uploadedByHash := false, dryRun := false,
          uploadResult := Except.ok (some "vid1"), stopSeenAtFailureRecord := false,
          playlistManagerPresent := false, playlistId := none,
          thumbnailExists := false, filePath := "/in/V/a.mp4", parentName := "V",
          playlistNameArg := none, fileSize := 3, metadataJson := "mj" }
      = [] :=
  (stop_latched_worker_inert.1
    { stopAtEntry := true, stopAfterSem := false, simpleCheck := false,
      force := false, uploadedByPath := false, hashResult := "aa11",
      uploadedByHash := false, dryRun := false,
      uploadResult := Except.ok (some "vid1"), stopSeenAtFailureRecord := false,
      playlistManagerPresent := false, playlistId := none,
      thumbnailExists := false, filePath := "/in/V/a.mp4", parentName := "V",
      playlistNameArg := none, fileSize := 3, metadataJson := "mj" }
    (Or.inl rfl)).1

/-- C4 counterexample: when `calculate_hash` returns the empty string (its
I/O-error sentinel) the worker does **not** treat it as a pre-upload
failure — there is no empty-hash check anywhere in `process_file` — so at
this concrete input the worker still calls `upload_video` and, the upload
succeeding, records a *success* row keyed by the empty hash; no failed row
is written.  The claim that an empty hash leads to a failed row and no
`upload_video` call is therefore false. -/
theorem empty_hash_uploads_anyway_counterexample :
    process_file
        { stopAtEntry := false, stopAfterSem := false, simpleCheck := false,
          force := false, uploadedByPath := false, hashResult := "",
          uploadedByHash := false, dryRun := false,
          uploadResult := Except.ok (some "vid1"), stopSeenAtFailureRecord := false,
          playlistManagerPresent := false, playlistId := none,
          thumbnailExists := false, filePath := "/in/V/c.mp4", parentName := "V",
          playlistNameArg := none, fileSize := 9, metadataJson := "mj" }
      = [Ev.callUpload, Ev.recordSuccess "/in/V/c.mp4" "" "vid1" "mj" "V" 9]
    ∧ Ev.latchStop ∉ process_file
        { stopAtEntry := false, stopAfterSem := false, simpleCheck := false,
          force := false, uploadedByPath := false, hashResult := "",
          uploadedByHash := false, dryRun := false,
          uploadResult := Except.ok (some "vid1"), stopSeenAtFailureRecord := false,
          playlistManagerPresent := false, playlistId := none,
          thumbnailExists := false, filePath := "/in/V/c.mp4", parentName := "V",
          playlistNameArg := none, fileSize := 9, metadataJson := "mj" } := by
  constructor
  · rfl
  · decide

/-- C4 as amended: an empty hash result receives no special handling.  A
worker whose checks all fall through still calls `upload_video` for the
file, and when the upload returns a (non-empty) video id it records a
*success* row keyed by the empty-string hash; the empty hash itself never
latches the stop signal (only the quota/upload-limit classifications do,
per the stop-latching theorem). -/
theorem empty_hash_no_special_handling (env : WorkerEnv)
    (h1 : env.stopAtEntry = false) (h2 : env.stopAfterSem = false)
    (h3 : (env.simpleCheck && !env.force && env.uploadedByPath) = false)
    (h4 : (!env.force && env.uploadedByHash) = false)
    (h5 : env.dryRun = false)
    (hh : env.hashResult = "") :
    Ev.callUpload ∈ process_file env
      ∧ (∀ vid, env.uploadResult = Except.ok (some vid) → (vid == "") = false →
          Ev.recordSuccess env.filePath "" vid env.metadataJson (targetPlaylist env)
              env.fileSize ∈ process_file env) := by
  constructor
  · unfold process_file
    simp only [h1, h2, h3, h4, h5, Bool.false_eq_true, if_false]
    exact List.mem_cons_self _ _
  · intro vid hv hve
    unfold process_file
    simp only [h1, h2, h3, h4, h5, Bool.false_eq_true, if_false, hv]
    rw [hve]
    simp only [Bool.false_eq_true, if_false, hh]
    exact List.mem_cons_of_mem _ (List.mem_cons_self _ _)

/-- Witness for the amended C4 at a concrete input: with an empty hash and a
successful upload, the worker's trace contains the `upload_video` call. -/
theorem empty_hash_no_special_handling_witness :
    Ev.callUpload ∈ process_file
        { stopAtEntry := false, stopAfterSem := false, simpleCheck := false,
          force := false, uploadedByPath := false, hashResult := "",
          uploadedByHash := false, dryRun := false,
          uploadResult := Except.ok (some "vid2"), stopSeenAtFailureRecord := false,
          playlistManagerPresent := false, playlistId := none,
          thumbnailExists := false, filePath := "/in/V/d.mp4", parentName := "V",
          playlistNameArg := none, fileSize := 4, metadataJson := "mj" } :=
  (empty_hash_no_special_handling
    { stopAtEntry := false, stopAfterSem := false, simpleCheck := false,
      force := false, uploadedByPath := false, hashResult := "",
      uploadedByHash := false, dryRun := false,
      uploadResult := Except.ok (some "vid2"), stopSeenAtFailureRecord := false,
      playlistManagerPresent := false, playlistId := none,
      thumbnailExists := false, filePath := "/in/V/d.mp4", parentName := "V",
      playlistNameArg := none, fileSize := 4, metadataJson := "mj" }
    rfl rfl rfl rfl rfl rfl).1

/-- C10: when `upload_video` completes without raising but resolves to
`None` (the terminal chunk response lacked an `id`), the worker's whole
trace is the upload call alone — no history row of either status, no stop
latch, no playlist attach, no thumbnail set — and the store is left
exactly as it was. -/
theorem upload_none_leaves_no_trace (env : WorkerEnv)
    (h1 : env.stopAtEntry = false) (h2 : env.stopAfterSem = false)
    (h3 : (env.simpleCheck && !env.force && env.uploadedByPath) = false)
    (h4 : (!env.force && env.uploadedByHash) = false)
    (h5 : env.dryRun = false)
    (hu : env.uploadResult = Except.ok none) :
    process_file env = [Ev.callUpload]
      ∧ (∀ (now : Int) (s : List Row), applyEvents now s (process_file env) = s) := by
  have heq : process_file env = [Ev.callUpload] := by
    unfold process_file
    simp [h1, h2, h3, h4, h5, hu]
  refine ⟨heq, ?_⟩
  intro now s
  rw [heq]
  rfl

/-- Witness for C10 at a concrete input: an id-less upload response leaves
only the upload call in the trace. -/
theorem upload_none_leaves_no_trace_witness :
    process_file
        { stopAtEntry := false, stopAfterSem := false, simpleCheck := false,
          force := false, uploadedByPath := false, hashResult := "bb22",
          uploadedByHash := false, dryRun := false,
          uploadResult := Except.ok none, stopSeenAtFailureRecord := false,
          playlistManagerPresent := true, playlistId := some "PL1",
          thumbnailExists := true, filePath := "/in/V/e.mp4", parentName := "V",
          playlistNameArg := none, fileSize := 5, metadataJson := "mj" }
      = [Ev.callUpload] :=
  (upload_none_leaves_no_trace
    { stopAtEntry := false, stopAfterSem := false, simpleCheck := false,
      force := false, uploadedByPath := false, hashResult := "bb22",
      uploadedByHash := false, dryRun := false,
      uploadResult := Except.ok none, stopSeenAtFailureRecord := false,
      playlistManagerPresent := true, playlistId := some "PL1",
      thumbnailExists := true, filePath := "/in/V/e.mp4", parentName := "V",
      playlistNameArg := none, fileSize := 5, metadataJson := "mj" }
    rfl rfl rfl rfl rfl rfl).1

/-! ## Template configuration merge
(`FileMetadataGenerator._resolve_template_config`, `src/lib/video/metadata.py`) -/

/-- The base template configuration taken from `settings.yaml`
(`config.metadata.*`). -/
structure TemplateConfig where
  title_template : String
  description_template : String
  tags : List String
deriving DecidableEq, Repr

/-- A parsed `.yt-meta.yaml` per-folder override: each key may be absent.
A missing or empty override file is `none` at the call site (`if
override:` is false for the empty dict). -/
structure FolderOverride where
  title_template : Option String
  description_template : Option String
  tags : Option (List String)
  extra_tags : Option (List String)
deriving DecidableEq, Repr

/-- `_resolve_template_config`: start from the base config; each of
`title_template`, `description_template`, `tags` present in the override
replaces the base value; then, when `extra_tags` is present, it is
concatenated onto the tag list (`base["tags"] = base["tags"] +
override["extra_tags"]`). -/
def resolve_template_config (cfg : TemplateConfig) (override : Option FolderOverride) :
    TemplateConfig :=
  match override with
  | none => cfg
  | some o =>
    let tags0 := match o.tags with
      | some ts => ts
      | none => cfg.tags
    let tags1 := match o.extra_tags with
      | some ex => tags0 ++ ex
      | none => tags0
    { title_template := match o.title_template with
        | some v => v
        | none => cfg.title_template,
      description_template := match o.description_template with
        | some v => v
        | none => cfg.description_template,
      tags := tags1 }

/-- C8 counterexample: `extra_tags` are appended with **no**
deduplication — base tags `["a"]` plus `extra_tags = ["a", "b"]` yield
`["a", "a", "b"]`, in which `"a"` appears twice.  The claim that the
effective tag list has duplicates removed (each tag appearing once) is
therefore false. -/
theorem extra_tags_not_deduplicated_counterexample :
    (resolve_template_config
          { title_template := "T", description_template := "D", tags := ["a"] }
          (some { title_template := none, description_template := none,
                  tags := none, extra_tags := some ["a", "b"] })).tags
        = ["a", "a", "b"]
      ∧ List.count "a"
          (resolve_template_config
            { title_template := "T", description_template := "D", tags := ["a"] }
            (some { title_template := none, description_template := none,
                    tags := none, extra_tags := some ["a", "b"] })).tags
        = 2 := by
  constructor
  · rfl
  · rfl

/-- C8 as amended: override values for `title_template`,
`description_template` and `tags` replace the corresponding base values,
and the effective tag list is the (possibly overridden) tag list with
`extra_tags` appended verbatim — occurrence counts add, so duplicates are
kept rather than removed. -/
theorem template_override_merge (cfg : TemplateConfig) (o : FolderOverride) :
    (∀ v, o.title_template = some v →
        (resolve_template_config cfg (some o)).title_template = v)
      ∧ (o.title_template = none →
          (resolve_template_config cfg (some o)).title_template = cfg.title_template)
      ∧ (∀ v, o.description_template = some v →
          (resolve_template_config cfg (some o)).description_template = v)
      ∧ (∀ ts, o.tags = some ts →
          (resolve_template_config cfg (some o)).tags = ts ++ o.extra_tags.getD [])
      ∧ (o.tags = none →
          (resolve_template_config cfg (some o)).tags = cfg.tags ++ o.extra_tags.getD [])
      ∧ (∀ t, List.count t (resolve_template_config cfg (some o)).tags
          = List.count t (o.tags.getD cfg.tags) + List.count t (o.extra_tags.getD [])) := by
  refine ⟨?_, ?_, ?_, ?_, ?_, ?_⟩
  · intro v hv
    simp [resolve_template_config, hv]
  · intro hv
    simp [resolve_template_config, hv]
  · intro v hv
    simp [resolve_template_config, hv]
  · intro ts hts
    cases hex : o.extra_tags with
    | none => simp [resolve_template_config, hts, hex]
    | some ex => simp [resolve_template_config, hts, hex]
  · intro hts
    cases hex : o.extra_tags with
    | none => simp [resolve_template_config, hts, hex]
    | some ex => simp [resolve_template_config, hts, hex]
  · intro t
    cases hts : o.tags with
    | none =>
      cases hex : o.extra_tags with
      | none => simp [resolve_template_config, hts, hex]
      | some ex => simp [resolve_template_config, hts, hex, List.count_append]
    | some ts =>
      cases hex : o.extra_tags with
      | none => simp [resolve_template_config, hts, hex]
      | some ex => simp [resolve_template_config, hts, hex, List.count_append]

/-- Witness for the amended C8 at a concrete input: an override carrying
only `extra_tags = ["beach"]` leaves the base tags and appends `"beach"`. -/
theorem template_override_merge_witness :
    (resolve_template_config
        { title_template := "T", description_template := "D", tags := ["auto"] }
        (some { title_template := none, description_template := none,
                tags := none, extra_tags := some ["beach"] })).tags
      = ["auto"] ++ ["beach"] :=
  ((template_override_merge
      { title_template := "T", description_template := "D", tags := ["auto"] }
      { title_template := none, description_template := none,
        tags := none, extra_tags := some ["beach"] }).2.2.2.2.1) rfl

/-! ## Playlist cache (`PlaylistManager`, `src/lib/video/playlist.py`)

`account` models the authenticated account's playlists as `(title, id)`
pairs in the order the API returns them.  `_ensure_cache` executes a
single `playlists().list(mine=True, maxResults=50)` call — there is no
`pageToken` loop (the source carries a `Todo: Handle pagination for >50
playlists` comment) — and stores `title → id` for the items of that one
response, i.e. for the first 50 playlists only. -/

def ensure_cache_items (account : List (String × String)) : List (String × String) :=
  account.take 50

/-- Cache lookup: `title in self._playlist_cache` / indexing. -/
def lookupTitle (cache : List (String × String)) (title : String) : Option String :=
  (cache.find? (fun e => e.1 == title)).map (fun e => e.2)

/-- `get_or_create_playlist`: fill the cache, return the cached id when the
title is known, otherwise create a brand-new playlist (`newId` is the id
the platform would assign) and return it, flagged as created. -/
def get_or_create_playlist (account : List (String × String)) (title newId : String) :
    String × Bool :=
  match lookupTitle (ensure_cache_items account) title with
  | some pid => (pid, false)
  | none => (newId, true)

/-- Title of the `i`-th playlist of the failing account (decimal rendering
avoided so the term evaluates by kernel reduction). -/
def mkTitle (i : Nat) : String := String.mk ('P' :: List.replicate i 'x')

/-- Id of the `i`-th playlist of the failing account. -/
def mkId (i : Nat) : String := String.mk ('I' :: List.replicate i 'x')

/-- An account with 51 playlists — one more than a single API page. -/
def account51 : List (String × String) :=
  (List.range 51).map (fun i => (mkTitle i, mkId i))

/-- C9, evaluated at the failing input: with 51 existing playlists the
single-page `_ensure_cache` caches only 50 titles; the 51st playlist's
title misses the cache, so `get_or_create_playlist` for that *existing*
title creates a duplicate playlist instead of returning its id — contrary
to the claim (and the spec's mandated pagination).  A cached title is still
resolved without creating anything. -/
theorem playlist_cache_misses_beyond_first_page :
    (mkTitle 50, mkId 50) ∈ account51
      ∧ (ensure_cache_items account51).length = 50
      ∧ lookupTitle (ensure_cache_items account51) (mkTitle 50) = none
      ∧ get_or_create_playlist account51 (mkTitle 50) "PL_NEW" = ("PL_NEW", true)
      ∧ get_or_create_playlist account51 (mkTitle 0) "PL_NEW" = (mkId 0, false) := by
  refine ⟨by decide, by decide, by decide, by decide, by decide⟩
